import Mathlib

/-
  Verification of the Power/Wake Cycle Controller of the Cognitiv
  environmental sensor firmware (ESP8266 + SCD41).

  Shallow embedding of:
  - PowerManager (src/src/managers/PowerManager.cpp): CRC-32 checksum,
    RTC persistent record read/write, quiet-hours window membership,
    wake-target computation, deep-sleep duration clamping.
  - I2CManager (src/src/managers/I2CManager.cpp): bus recovery protocol.
  - Sensor acquisition and publish gating (src/src/main.cpp).

  Machine integers are modelled as Nat; the C code uses uint32_t values
  that never overflow in the modelled operations (xor and shift keep
  values below 2^32), so no explicit wrap-around is needed.  Time
  (time_t) is modelled as seconds since the Unix epoch; the libc
  localtime_r/mktime pair is modelled as civil-time arithmetic at UTC,
  matching the configuration shipped in src/include/config.h
  (GMT_OFFSET_SEC = 0, DAYLIGHT_OFFSET_SEC = 0, so no DST transitions).
  Configuration constants that live in the device-local config.h (which
  is not part of the repository) are passed as explicit parameters.
-/

/- ════════════════════════════════════════════════════════════════════
   Quiet-hours scheduler (PowerManager::isQuietHours, lines 73-87)
   ════════════════════════════════════════════════════════════════════ -/

/-- Compile-time quiet-hours configuration consumed by PowerManager:
QUIET_HOURS_ENABLED, QUIET_START_HOUR/MINUTE, QUIET_END_HOUR/MINUTE. -/
structure QuietConfig where
  enabled : Bool
  startHour : Nat
  startMinute : Nat
  endHour : Nat
  endMinute : Nat
deriving DecidableEq

/-- Embedding of PowerManager::isQuietHours (PowerManager.cpp lines 73-87):
convert current time and window boundaries to minutes since midnight; an
overnight window (start_m greater than end_m) matches when now_m is at or
after start or strictly before end, a same-day window when both hold. -/
def isQuietHours (cfg : QuietConfig) (hour minute : Nat) : Bool :=
  if !cfg.enabled then false
  else
    let now_m := hour * 60 + minute
    let start_m := cfg.startHour * 60 + cfg.startMinute
    let end_m := cfg.endHour * 60 + cfg.endMinute
    if start_m > end_m then decide (now_m ≥ start_m) || decide (now_m < end_m)
    else decide (now_m ≥ start_m) && decide (now_m < end_m)

/-- The overnight test window 16:00 → 07:55 used by the specification,
with the quiet-hours feature enabled. -/
def quietWindow1600to0755 : QuietConfig :=
  { enabled := true, startHour := 16, startMinute := 0, endHour := 7, endMinute := 55 }

/-- C1 (amended): with the quiet-hours feature enabled, membership in the
configured window follows the dual-branch minutes-since-midnight rule
(overnight window: now at/after start or before end; same-day window:
both), and for the window 16:00-07:55 the boundary values are
isQuietHours 15:59 = false, 16:00 = true, 7:54 = true, 7:55 = false, and
isQuietHours 12:00 = false (noon lies outside the overnight window). -/
theorem isQuietHours_window_rule :
    (∀ (cfg : QuietConfig) (hour minute : Nat), cfg.enabled = true →
      (isQuietHours cfg hour minute = true ↔
        (if cfg.startHour * 60 + cfg.startMinute > cfg.endHour * 60 + cfg.endMinute
         then hour * 60 + minute ≥ cfg.startHour * 60 + cfg.startMinute
              ∨ hour * 60 + minute < cfg.endHour * 60 + cfg.endMinute
         else hour * 60 + minute ≥ cfg.startHour * 60 + cfg.startMinute
              ∧ hour * 60 + minute < cfg.endHour * 60 + cfg.endMinute)))
    ∧ isQuietHours quietWindow1600to0755 15 59 = false
    ∧ isQuietHours quietWindow1600to0755 16 0 = true
    ∧ isQuietHours quietWindow1600to0755 7 54 = true
    ∧ isQuietHours quietWindow1600to0755 7 55 = false
    ∧ isQuietHours quietWindow1600to0755 12 0 = false := by
  refine ⟨?_, by decide, by decide, by decide, by decide, by decide⟩
  intro cfg hour minute he
  simp only [isQuietHours, he, Bool.not_true, Bool.false_eq_true, if_false]
  split_ifs <;> simp

/-- Witness for C1: 20:30 lies inside the overnight window 16:00-07:55. -/
theorem isQuietHours_window_rule_witness :
    isQuietHours quietWindow1600to0755 20 30 = true :=
  (isQuietHours_window_rule.1 quietWindow1600to0755 20 30 rfl).mpr (by decide)

/-- Counterexample to C1 as stated: the claim asserts
isQuietNow(12,0) = true for the window 16:00-07:55, but the code computes
false (720 minutes is neither at/after 960 nor before 475). -/
theorem quiet_noon_not_in_overnight_window :
    isQuietHours quietWindow1600to0755 12 0 = false := by decide

/-- C10: with QUIET_HOURS_ENABLED false, isQuietHours returns false for
every hour and minute, regardless of the configured window boundaries. -/
theorem isQuietHours_disabled_always_false (cfg : QuietConfig)
    (h : cfg.enabled = false) (hour minute : Nat) :
    isQuietHours cfg hour minute = false := by
  simp [isQuietHours, h]

/-- Witness for C10 at a concrete disabled configuration and time. -/
theorem isQuietHours_disabled_always_false_witness :
    isQuietHours { quietWindow1600to0755 with enabled := false } 16 30 = false :=
  isQuietHours_disabled_always_false _ rfl 16 30

/- ════════════════════════════════════════════════════════════════════
   Wake-target computation (PowerManager::calculateWakeTarget, lines 89-108)
   ════════════════════════════════════════════════════════════════════ -/

/-- Embedding of PowerManager::calculateWakeTarget (PowerManager.cpp lines
89-108): take the calendar day containing now, place the configured
quiet-window end hour/minute with seconds = 0 on that day, and if the
resulting instant is not strictly after now, roll the date forward by one
day (mktime normalisation).  localtime_r/mktime are modelled at UTC with
no DST, per GMT_OFFSET_SEC = 0 / DAYLIGHT_OFFSET_SEC = 0 in config.h. -/
def calculateWakeTarget (cfg : QuietConfig) (now : Nat) : Nat :=
  let dayStart := now / 86400 * 86400
  let target := dayStart + (cfg.endHour * 3600 + cfg.endMinute * 60)
  if target ≤ now then target + 86400 else target

/-- C3: for every timestamp now, calculateWakeTarget returns an instant
strictly after now whose time-of-day is exactly the configured end
hour/minute with seconds 0; it is today's date with the end time-of-day,
rolled forward one day exactly when that instant is not strictly after
now. -/
theorem calculateWakeTarget_next_end_of_quiet (cfg : QuietConfig) (now : Nat)
    (hH : cfg.endHour < 24) (hM : cfg.endMinute < 60) :
    now < calculateWakeTarget cfg now
    ∧ calculateWakeTarget cfg now % 86400 / 3600 = cfg.endHour
    ∧ calculateWakeTarget cfg now % 3600 / 60 = cfg.endMinute
    ∧ calculateWakeTarget cfg now % 60 = 0
    ∧ calculateWakeTarget cfg now =
        (if now < now / 86400 * 86400 + (cfg.endHour * 3600 + cfg.endMinute * 60)
         then now / 86400 * 86400 + (cfg.endHour * 3600 + cfg.endMinute * 60)
         else now / 86400 * 86400 + (cfg.endHour * 3600 + cfg.endMinute * 60) + 86400) := by
  have h1 : now / 86400 * 86400 ≤ now := Nat.div_mul_le_self now 86400
  have h2 : now < now / 86400 * 86400 + 86400 := by omega
  simp only [calculateWakeTarget]
  refine ⟨?_, ?_, ?_, ?_, ?_⟩ <;> split_ifs <;> omega

/-- Witness for C3 at now = 0 with the end-of-quiet time 07:55. -/
theorem calculateWakeTarget_next_end_of_quiet_witness :
    0 < calculateWakeTarget quietWindow1600to0755 0 :=
  (calculateWakeTarget_next_end_of_quiet quietWindow1600to0755 0
    (by decide) (by decide)).1

/- ════════════════════════════════════════════════════════════════════
   Deep-sleep duration clamping (PowerManager::deepSleep, lines 114-132)
   ════════════════════════════════════════════════════════════════════ -/

/-- Compile-time sleep configuration consumed by PowerManager:
SLEEP_INTERVAL_SEC (standard short interval) and MAX_DEEP_SLEEP_SEC
(hardware single-sleep ceiling). -/
structure SleepConfig where
  sleepIntervalSec : Nat
  maxDeepSleepSec : Nat
deriving DecidableEq

/-- Embedding of the duration arithmetic of PowerManager::deepSleep
(PowerManager.cpp lines 114-132): a request of 0 is remapped to
SLEEP_INTERVAL_SEC, then the result is clamped to MAX_DEEP_SLEEP_SEC;
the returned value is the seconds figure actually handed to the hardware
sleep call. -/
def deepSleepSeconds (cfg : SleepConfig) (seconds : Nat) : Nat :=
  let s := if seconds = 0 then cfg.sleepIntervalSec else seconds
  if s > cfg.maxDeepSleepSec then cfg.maxDeepSleepSec else s

/-- C6: provided the configured short interval is at least 1 and at most
the hardware ceiling, the committed duration always lies in
[1, maxDeepSleepSec]; a request of 0 yields the standard short interval
and any other request yields min(seconds, maxDeepSleepSec). -/
theorem deepSleep_clamps_duration (cfg : SleepConfig) (seconds : Nat)
    (h1 : 1 ≤ cfg.sleepIntervalSec) (h2 : cfg.sleepIntervalSec ≤ cfg.maxDeepSleepSec) :
    1 ≤ deepSleepSeconds cfg seconds
    ∧ deepSleepSeconds cfg seconds ≤ cfg.maxDeepSleepSec
    ∧ (seconds = 0 → deepSleepSeconds cfg seconds = cfg.sleepIntervalSec)
    ∧ (seconds ≠ 0 → deepSleepSeconds cfg seconds = min seconds cfg.maxDeepSleepSec) := by
  simp only [deepSleepSeconds]
  refine ⟨?_, ?_, ?_, ?_⟩ <;> split_ifs <;> simp_all <;> omega

/-- Witness for C6: a zero request with interval 300 s and ceiling 12600 s
commits the device to a 300 s sleep. -/
theorem deepSleep_clamps_duration_witness :
    deepSleepSeconds { sleepIntervalSec := 300, maxDeepSleepSec := 12600 } 0 = 300 :=
  (deepSleep_clamps_duration _ 0 (by decide) (by decide)).2.2.1 rfl

/- ════════════════════════════════════════════════════════════════════
   CRC-32 and RTC persistence (PowerManager.cpp lines 13-21 and 29-59)
   ════════════════════════════════════════════════════════════════════ -/

/-- One shift-and-conditional-xor step of the bitwise CRC loop
(PowerManager.cpp line 18): if the low bit is set, shift right and xor
the reflected polynomial 0xEDB88320, else just shift right. -/
def crcRound (c : Nat) : Nat :=
  if c % 2 = 1 then c / 2 ^^^ 0xEDB88320 else c / 2

/-- Iterate crcRound n times (the inner for-loop runs 8 rounds). -/
def crcRounds : Nat → Nat → Nat
  | 0, c => c
  | n + 1, c => crcRounds n (crcRound c)

/-- Process one input byte: xor it into the state, then 8 rounds
(PowerManager.cpp lines 16-18). -/
def crcByte (c b : Nat) : Nat := crcRounds 8 (c ^^^ b)

/-- Fold the byte step over the input (the outer for-loop). -/
def crcFold (c : Nat) (data : List Nat) : Nat := data.foldl crcByte c

/-- Embedding of the static crc32 function (PowerManager.cpp lines 13-21):
initial state 0xFFFFFFFF, per-byte processing, final complement (the C
code returns ~crc, i.e. crc xor 0xFFFFFFFF on 32-bit values). -/
def crc32 (data : List Nat) : Nat := crcFold 0xFFFFFFFF data ^^^ 0xFFFFFFFF

/-- Little-endian byte serialisation of a 32-bit value, the in-memory
layout of each uint32_t field of RTCData on the ESP8266. -/
def bytes32 (x : Nat) : List Nat :=
  [x % 256, x / 256 % 256, x / 65536 % 256, x / 16777216 % 256]

/-- The persistent record (managers/PowerManager.h lines 13-18). -/
structure RTCData where
  crc32 : Nat
  magic : Nat
  quiet_wake_target : Nat
  sleep_cycles_remaining : Nat
deriving DecidableEq

/-- The bytes of an RTCData record after the crc32 field, in layout order:
magic, quiet_wake_target, sleep_cycles_remaining. -/
def rtcPayloadBytes (magic target cycles : Nat) : List Nat :=
  bytes32 magic ++ (bytes32 target ++ bytes32 cycles)

/-- Embedding of PowerManager::writeRTC (PowerManager.cpp lines 50-59):
the stored image forces the marker to the expected constant (RTC_MAGIC,
passed here as the magic parameter since the device-local config.h is not
in the repository) and recomputes the CRC over the bytes after the crc32
field; the crc32 and magic fields of the input are ignored. -/
def writeRTC (magic : Nat) (d : RTCData) : List Nat :=
  bytes32 (crc32 (rtcPayloadBytes magic d.quiet_wake_target d.sleep_cycles_remaining))
    ++ rtcPayloadBytes magic d.quiet_wake_target d.sleep_cycles_remaining

/-- Read a little-endian 32-bit field at a byte offset of the record. -/
def field32 (mem : List Nat) (off : Nat) : Nat :=
  mem.getD off 0 + 256 * mem.getD (off + 1) 0 + 65536 * mem.getD (off + 2) 0
    + 16777216 * mem.getD (off + 3) 0

/-- Decode the four fields of a stored record image. -/
def decodeRTC (mem : List Nat) : RTCData :=
  { crc32 := field32 mem 0, magic := field32 mem 4,
    quiet_wake_target := field32 mem 8, sleep_cycles_remaining := field32 mem 12 }

/-- Embedding of PowerManager::readRTC (PowerManager.cpp lines 29-48):
recompute the CRC over the bytes after the crc32 field and compare it and
the marker; the flag is true only when both match. -/
def readRTC (magic : Nat) (mem : List Nat) : RTCData × Bool :=
  (decodeRTC mem,
    decide (field32 mem 0 = crc32 (mem.drop 4)) && decide (field32 mem 4 = magic))

/-- Flip one bit of the stored record image: bit (i % 8) of byte (i / 8). -/
def flipBit (mem : List Nat) (i : Nat) : List Nat :=
  mem.set (i / 8) (mem.getD (i / 8) 0 ^^^ 2 ^ (i % 8))

/-- Pointwise xor of two byte lists (an error mask applied to a record). -/
def zipXor (l1 l2 : List Nat) : List Nat := List.zipWith (· ^^^ ·) l1 l2

/-- The length-n list that is v at index j and 0 elsewhere. -/
def unitVec : Nat → Nat → Nat → List Nat
  | 0, _, _ => []
  | n + 1, 0, v => v :: List.replicate n 0
  | n + 1, j + 1, v => 0 :: unitVec n j v

theorem unitVec_length (n : Nat) : ∀ j v, (unitVec n j v).length = n := by
  induction n with
  | zero => intro j v; rfl
  | succ n ih =>
    intro j v
    cases j with
    | zero => simp [unitVec]
    | succ j => simp [unitVec, ih]

theorem zipXor_replicate_zero (l : List Nat) :
    zipXor l (List.replicate l.length 0) = l := by
  induction l with
  | nil => rfl
  | cons x xs ih =>
    simp only [zipXor, List.length_cons, List.replicate_succ, List.zipWith_cons_cons,
      Nat.xor_zero, List.cons.injEq, true_and]
    exact ih

theorem set_flip_eq_zipXor :
    ∀ (l : List Nat) (j v : Nat), j < l.length →
      l.set j (l.getD j 0 ^^^ v) = zipXor l (unitVec l.length j v) := by
  intro l
  induction l with
  | nil => intro j v h; simp at h
  | cons x xs ih =>
    intro j v h
    cases j with
    | zero =>
      simp only [List.getD_cons_zero, List.set_cons_zero, List.length_cons, unitVec,
        zipXor, List.zipWith_cons_cons, List.cons.injEq, true_and]
      exact (zipXor_replicate_zero xs).symm
    | succ j =>
      simp only [List.getD_cons_succ, List.set_cons_succ, List.length_cons, unitVec,
        zipXor, List.zipWith_cons_cons, Nat.xor_zero, List.cons.injEq, true_and]
      exact ih j v (by simpa using h)

theorem mod2_xor (a b : Nat) : (a ^^^ b) % 2 = a % 2 ^^^ b % 2 := by
  rw [← Nat.and_one_is_mod, ← Nat.and_one_is_mod, ← Nat.and_one_is_mod]
  exact Nat.and_xor_distrib_right

theorem div2_xor (a b : Nat) : (a ^^^ b) / 2 = a / 2 ^^^ b / 2 := by
  apply Nat.eq_of_testBit_eq
  intro i
  simp [Nat.testBit_div_two, Nat.testBit_xor]

theorem xor_swap_right (x y p : Nat) : (x ^^^ y) ^^^ p = (x ^^^ p) ^^^ y := by
  rw [Nat.xor_assoc, Nat.xor_comm y p, ← Nat.xor_assoc]

theorem xor_cancel_pair (x y p : Nat) : x ^^^ y = (x ^^^ p) ^^^ (y ^^^ p) := by
  rw [Nat.xor_assoc, Nat.xor_comm y p, ← Nat.xor_assoc p p y, Nat.xor_self, Nat.zero_xor]

theorem crcRound_xor (a b : Nat) : crcRound (a ^^^ b) = crcRound a ^^^ crcRound b := by
  have hm := mod2_xor a b
  rcases Nat.mod_two_eq_zero_or_one a with ha | ha <;>
    rcases Nat.mod_two_eq_zero_or_one b with hb | hb
  · have hm2 : (a ^^^ b) % 2 = 0 := by rw [hm, ha, hb] <;> decide
    simp only [crcRound, hm2, ha, hb, reduceIte]
    exact div2_xor a b
  · have hm2 : (a ^^^ b) % 2 = 1 := by rw [hm, ha, hb] <;> decide
    simp only [crcRound, hm2, ha, hb, reduceIte]
    rw [div2_xor]
    exact Nat.xor_assoc _ _ _
  · have hm2 : (a ^^^ b) % 2 = 1 := by rw [hm, ha, hb] <;> decide
    simp only [crcRound, hm2, ha, hb, reduceIte]
    rw [div2_xor]
    exact xor_swap_right _ _ _
  · have hm2 : (a ^^^ b) % 2 = 0 := by rw [hm, ha, hb] <;> decide
    simp only [crcRound, hm2, ha, hb, reduceIte]
    rw [div2_xor]
    exact xor_cancel_pair _ _ _

theorem crcRounds_xor (n : Nat) : ∀ a b,
    crcRounds n (a ^^^ b) = crcRounds n a ^^^ crcRounds n b := by
  induction n with
  | zero => intro a b; rfl
  | succ n ih =>
    intro a b
    show crcRounds n (crcRound (a ^^^ b)) = _
    rw [crcRound_xor]
    exact ih (crcRound a) (crcRound b)

theorem crcByte_xor (a x b y : Nat) :
    crcByte (a ^^^ b) (x ^^^ y) = crcByte a x ^^^ crcByte b y := by
  unfold crcByte
  rw [← crcRounds_xor]
  congr 1
  apply Nat.eq_of_testBit_eq
  intro i
  simp only [Nat.testBit_xor]
  cases a.testBit i <;> cases b.testBit i <;> cases x.testBit i <;> cases y.testBit i <;> rfl

theorem crcFold_xor :
    ∀ (d1 d2 : List Nat) (a b : Nat), d1.length = d2.length →
      crcFold (a ^^^ b) (zipXor d1 d2) = crcFold a d1 ^^^ crcFold b d2 := by
  intro d1
  induction d1 with
  | nil =>
    intro d2 a b h
    cases d2 with
    | nil => rfl
    | cons y ys => simp at h
  | cons x xs ih =>
    intro d2 a b h
    cases d2 with
    | nil => simp at h
    | cons y ys =>
      show crcFold (crcByte (a ^^^ b) (x ^^^ y)) (zipXor xs ys) = _
      rw [crcByte_xor]
      exact ih ys (crcByte a x) (crcByte b y) (by simpa using h)

theorem crc32_flip (p e : List Nat) (h : p.length = e.length) :
    crc32 (zipXor p e) = crc32 p ^^^ crcFold 0 e := by
  unfold crc32
  have hx := crcFold_xor p e 0xFFFFFFFF 0 h
  rw [Nat.xor_zero] at hx
  rw [hx, Nat.xor_assoc, Nat.xor_comm (crcFold 0 e), ← Nat.xor_assoc]

theorem xor_ne_of_ne_zero (a b : Nat) (hb : b ≠ 0) : a ^^^ b ≠ a := by
  intro h
  have h2 : a ^^^ (a ^^^ b) = a ^^^ a := congrArg (a ^^^ ·) h
  rw [← Nat.xor_assoc, Nat.xor_self, Nat.zero_xor] at h2
  exact hb h2

theorem crcRound_lt {c : Nat} (h : c < 2 ^ 32) : crcRound c < 2 ^ 32 := by
  unfold crcRound
  split
  · exact Nat.xor_lt_two_pow (by omega) (by norm_num)
  · omega

theorem crcRounds_lt (n : Nat) : ∀ {c : Nat}, c < 2 ^ 32 → crcRounds n c < 2 ^ 32 := by
  induction n with
  | zero => intro c h; exact h
  | succ n ih => intro c h; exact ih (crcRound_lt h)

theorem crcByte_lt {c b : Nat} (hc : c < 2 ^ 32) (hb : b < 2 ^ 32) : crcByte c b < 2 ^ 32 :=
  crcRounds_lt 8 (Nat.xor_lt_two_pow hc hb)

theorem crcFold_lt :
    ∀ (data : List Nat) {c : Nat}, c < 2 ^ 32 → (∀ b ∈ data, b < 256) →
      crcFold c data < 2 ^ 32 := by
  intro data
  induction data with
  | nil => intro c hc _; exact hc
  | cons x xs ih =>
    intro c hc hd
    have hx : x < 2 ^ 32 := lt_trans (hd x (by simp)) (by norm_num)
    show crcFold (crcByte c x) xs < 2 ^ 32
    exact ih (crcByte_lt hc hx) (fun b hb => hd b (by simp [hb]))

theorem crc32_lt {data : List Nat} (hd : ∀ b ∈ data, b < 256) : crc32 data < 2 ^ 32 :=
  Nat.xor_lt_two_pow (crcFold_lt data (by norm_num) hd) (by norm_num)

theorem bytes32_mem_lt (x : Nat) : ∀ b ∈ bytes32 x, b < 256 := by
  intro b hb
  simp only [bytes32, List.mem_cons, List.not_mem_nil, or_false] at hb
  rcases hb with h | h | h | h <;> subst h <;> omega

theorem rtcPayloadBytes_mem_lt (m t c : Nat) : ∀ b ∈ rtcPayloadBytes m t c, b < 256 := by
  intro b hb
  simp only [rtcPayloadBytes, List.mem_append] at hb
  rcases hb with h | h | h
  exacts [bytes32_mem_lt m b h, bytes32_mem_lt t b h, bytes32_mem_lt c b h]

theorem field32_quad (a b c d : Nat) :
    field32 [a, b, c, d] 0 = a + 256 * b + 65536 * c + 16777216 * d := rfl

theorem field32_bytes32 (x : Nat) (h : x < 2 ^ 32) : field32 (bytes32 x) 0 = x := by
  show field32 [x % 256, x / 256 % 256, x / 65536 % 256, x / 16777216 % 256] 0 = x
  rw [field32_quad]
  omega

theorem field32_append_left4 (l1 l2 : List Nat) (h : l1.length = 4) :
    field32 (l1 ++ l2) 0 = field32 l1 0 := by
  have h0 := List.getD_append l1 l2 0 0 (by omega)
  have h1 := List.getD_append l1 l2 0 1 (by omega)
  have h2 := List.getD_append l1 l2 0 2 (by omega)
  have h3 := List.getD_append l1 l2 0 3 (by omega)
  unfold field32
  rw [h0]
  rw [show (0 + 1 : Nat) = 1 from rfl, show (0 + 2 : Nat) = 2 from rfl,
    show (0 + 3 : Nat) = 3 from rfl, h1, h2, h3]

theorem field32_append_skip4 (l1 l2 : List Nat) (off : Nat) (h : l1.length = 4) :
    field32 (l1 ++ l2) (4 + off) = field32 l2 off := by
  have h0 := List.getD_append_right l1 l2 0 (4 + off) (by omega)
  have h1 := List.getD_append_right l1 l2 0 (4 + off + 1) (by omega)
  have h2 := List.getD_append_right l1 l2 0 (4 + off + 2) (by omega)
  have h3 := List.getD_append_right l1 l2 0 (4 + off + 3) (by omega)
  rw [h] at h0 h1 h2 h3
  have e0 : 4 + off - 4 = off := by omega
  have e1 : 4 + off + 1 - 4 = off + 1 := by omega
  have e2 : 4 + off + 2 - 4 = off + 2 := by omega
  have e3 : 4 + off + 3 - 4 = off + 3 := by omega
  rw [e0] at h0
  rw [e1] at h1
  rw [e2] at h2
  rw [e3] at h3
  unfold field32
  rw [h0, h1, h2, h3]

theorem drop4_append (l1 l2 : List Nat) (h : l1.length = 4) : (l1 ++ l2).drop 4 = l2 := by
  rw [← h]
  exact List.drop_left l1 l2

set_option maxRecDepth 80000 in
theorem crc_single_bit_all :
    ((List.range 96).all fun n => crcFold 0 (unitVec 12 (n / 8) (2 ^ (n % 8))) != 0) = true := by
  decide

theorem crc_single_bit_nonzero (j r : Nat) (hj : j < 12) (hr : r < 8) :
    crcFold 0 (unitVec 12 j (2 ^ r)) ≠ 0 := by
  have h := crc_single_bit_all
  rw [List.all_eq_true] at h
  have h2 := h (8 * j + r) (List.mem_range.mpr (by omega))
  have hj2 : (8 * j + r) / 8 = j := by omega
  have hr2 : (8 * j + r) % 8 = r := by omega
  rw [hj2, hr2] at h2
  simpa using h2

theorem bytes32_set_flip_ne (x k r : Nat) (hx : x < 2 ^ 32) (hk : k < 4) :
    field32 ((bytes32 x).set k ((bytes32 x).getD k 0 ^^^ 2 ^ r)) 0 ≠ x := by
  have hp2 : (2 : Nat) ^ r ≠ 0 := (Nat.two_pow_pos r).ne'
  interval_cases k
  · have hne := xor_ne_of_ne_zero (x % 256) (2 ^ r) hp2
    have e : (bytes32 x).set 0 ((bytes32 x).getD 0 0 ^^^ 2 ^ r)
        = [x % 256 ^^^ 2 ^ r, x / 256 % 256, x / 65536 % 256, x / 16777216 % 256] := rfl
    rw [e, field32_quad]
    omega
  · have hne := xor_ne_of_ne_zero (x / 256 % 256) (2 ^ r) hp2
    have e : (bytes32 x).set 1 ((bytes32 x).getD 1 0 ^^^ 2 ^ r)
        = [x % 256, x / 256 % 256 ^^^ 2 ^ r, x / 65536 % 256, x / 16777216 % 256] := rfl
    rw [e, field32_quad]
    omega
  · have hne := xor_ne_of_ne_zero (x / 65536 % 256) (2 ^ r) hp2
    have e : (bytes32 x).set 2 ((bytes32 x).getD 2 0 ^^^ 2 ^ r)
        = [x % 256, x / 256 % 256, x / 65536 % 256 ^^^ 2 ^ r, x / 16777216 % 256] := rfl
    rw [e, field32_quad]
    omega
  · have hne := xor_ne_of_ne_zero (x / 16777216 % 256) (2 ^ r) hp2
    have e : (bytes32 x).set 3 ((bytes32 x).getD 3 0 ^^^ 2 ^ r)
        = [x % 256, x / 256 % 256, x / 65536 % 256, x / 16777216 % 256 ^^^ 2 ^ r] := rfl
    rw [e, field32_quad]
    omega

/-- C4: for every in-range WakeState (payload fields below 2^32), writing
the record and reading it back yields valid = true and returns the same
quietWakeTarget, sleepCyclesRemaining and marker: writeRTC always
recomputes the checksum over the fields after it and forces the marker,
so a write/read round-trip cannot produce a mismatched record. -/
theorem readRTC_writeRTC_roundtrip (magic : Nat) (d : RTCData)
    (hmg : magic < 2 ^ 32) (ht : d.quiet_wake_target < 2 ^ 32)
    (hcy : d.sleep_cycles_remaining < 2 ^ 32) :
    (readRTC magic (writeRTC magic d)).2 = true
    ∧ (readRTC magic (writeRTC magic d)).1.quiet_wake_target = d.quiet_wake_target
    ∧ (readRTC magic (writeRTC magic d)).1.sleep_cycles_remaining = d.sleep_cycles_remaining
    ∧ (readRTC magic (writeRTC magic d)).1.magic = magic := by
  have hf0p : field32 (rtcPayloadBytes magic d.quiet_wake_target d.sleep_cycles_remaining) 0
      = magic := by
    rw [rtcPayloadBytes, field32_append_left4 (bytes32 magic) _ rfl]
    exact field32_bytes32 _ hmg
  have hf4p : field32 (rtcPayloadBytes magic d.quiet_wake_target d.sleep_cycles_remaining) 4
      = d.quiet_wake_target := by
    rw [rtcPayloadBytes]
    have h := field32_append_skip4 (bytes32 magic)
      (bytes32 d.quiet_wake_target ++ bytes32 d.sleep_cycles_remaining) 0 rfl
    norm_num at h
    rw [h, field32_append_left4 (bytes32 d.quiet_wake_target) _ rfl]
    exact field32_bytes32 _ ht
  have hf8p : field32 (rtcPayloadBytes magic d.quiet_wake_target d.sleep_cycles_remaining) 8
      = d.sleep_cycles_remaining := by
    rw [rtcPayloadBytes]
    have h := field32_append_skip4 (bytes32 magic)
      (bytes32 d.quiet_wake_target ++ bytes32 d.sleep_cycles_remaining) 4 rfl
    norm_num at h
    rw [h]
    have h2 := field32_append_skip4 (bytes32 d.quiet_wake_target)
      (bytes32 d.sleep_cycles_remaining) 0 rfl
    norm_num at h2
    rw [h2]
    exact field32_bytes32 _ hcy
  have hpb : ∀ b ∈ rtcPayloadBytes magic d.quiet_wake_target d.sleep_cycles_remaining,
      b < 256 := rtcPayloadBytes_mem_lt _ _ _
  have hp : writeRTC magic d
      = bytes32 (crc32 (rtcPayloadBytes magic d.quiet_wake_target d.sleep_cycles_remaining))
        ++ rtcPayloadBytes magic d.quiet_wake_target d.sleep_cycles_remaining := rfl
  rw [readRTC, hp]
  generalize hq : rtcPayloadBytes magic d.quiet_wake_target d.sleep_cycles_remaining = p
  rw [hq] at hf0p hf4p hf8p hpb
  have hC : crc32 p < 2 ^ 32 := crc32_lt hpb
  have hcbl : (bytes32 (crc32 p)).length = 4 := rfl
  have hof0 : field32 (bytes32 (crc32 p) ++ p) 0 = crc32 p := by
    rw [field32_append_left4 _ _ hcbl]
    exact field32_bytes32 _ hC
  have hof4 : field32 (bytes32 (crc32 p) ++ p) 4 = magic := by
    have h := field32_append_skip4 (bytes32 (crc32 p)) p 0 hcbl
    norm_num at h
    rw [h, hf0p]
  have hof8 : field32 (bytes32 (crc32 p) ++ p) 8 = d.quiet_wake_target := by
    have h := field32_append_skip4 (bytes32 (crc32 p)) p 4 hcbl
    norm_num at h
    rw [h, hf4p]
  have hof12 : field32 (bytes32 (crc32 p) ++ p) 12 = d.sleep_cycles_remaining := by
    have h := field32_append_skip4 (bytes32 (crc32 p)) p 8 hcbl
    norm_num at h
    rw [h, hf8p]
  have hdrop : (bytes32 (crc32 p) ++ p).drop 4 = p := drop4_append _ _ hcbl
  dsimp only [decodeRTC]
  rw [hdrop, hof0, hof4, hof8, hof12]
  simp

/-- Witness for C4: a concrete record round-trips as valid. -/
theorem readRTC_writeRTC_roundtrip_witness :
    (readRTC 2779096485 (writeRTC 2779096485
      { crc32 := 0, magic := 0, quiet_wake_target := 123456, sleep_cycles_remaining := 7 })).2
      = true :=
  (readRTC_writeRTC_roundtrip 2779096485 _ (by norm_num) (by norm_num) (by norm_num)).1

/-- C5: flipping any single bit of a freshly written record (any of the
128 bits, including the checksum and marker fields) makes the next read
report valid = false: a flip inside the stored checksum desynchronises it
from the recomputed one, and a flip in the 12 payload bytes changes the
recomputed CRC by a nonzero xor-delta, so the CRC comparison fails. -/
theorem readRTC_detects_single_bit_flip (magic : Nat) (d : RTCData) (i : Nat)
    (hmg : magic < 2 ^ 32) (ht : d.quiet_wake_target < 2 ^ 32)
    (hcy : d.sleep_cycles_remaining < 2 ^ 32) (hi : i < 128) :
    (readRTC magic (flipBit (writeRTC magic d) i)).2 = false := by
  have hpb : ∀ b ∈ rtcPayloadBytes magic d.quiet_wake_target d.sleep_cycles_remaining,
      b < 256 := rtcPayloadBytes_mem_lt _ _ _
  have hplen : (rtcPayloadBytes magic d.quiet_wake_target d.sleep_cycles_remaining).length
      = 12 := rfl
  have hp : writeRTC magic d
      = bytes32 (crc32 (rtcPayloadBytes magic d.quiet_wake_target d.sleep_cycles_remaining))
        ++ rtcPayloadBytes magic d.quiet_wake_target d.sleep_cycles_remaining := rfl
  rw [flipBit, readRTC, hp]
  generalize hq : rtcPayloadBytes magic d.quiet_wake_target d.sleep_cycles_remaining = p
  rw [hq] at hpb hplen
  have hC : crc32 p < 2 ^ 32 := crc32_lt hpb
  have hcbl : (bytes32 (crc32 p)).length = 4 := rfl
  have hr : i % 8 < 8 := Nat.mod_lt _ (by norm_num)
  dsimp only [decodeRTC]
  rcases Nat.lt_or_ge (i / 8) 4 with hk | hk
  · -- the flipped bit lies in the stored crc32 field
    have hgd : (bytes32 (crc32 p) ++ p).getD (i / 8) 0 = (bytes32 (crc32 p)).getD (i / 8) 0 :=
      List.getD_append _ _ _ _ (by omega)
    have hst : (bytes32 (crc32 p) ++ p).set (i / 8)
          ((bytes32 (crc32 p)).getD (i / 8) 0 ^^^ 2 ^ (i % 8))
        = (bytes32 (crc32 p)).set (i / 8)
            ((bytes32 (crc32 p)).getD (i / 8) 0 ^^^ 2 ^ (i % 8)) ++ p :=
      List.set_append_left _ _ (by omega)
    rw [hgd, hst]
    have hsl : ((bytes32 (crc32 p)).set (i / 8)
        ((bytes32 (crc32 p)).getD (i / 8) 0 ^^^ 2 ^ (i % 8))).length = 4 := by
      rw [List.length_set]
      exact hcbl
    rw [drop4_append _ _ hsl, field32_append_left4 _ _ hsl]
    have hne : field32 ((bytes32 (crc32 p)).set (i / 8)
        ((bytes32 (crc32 p)).getD (i / 8) 0 ^^^ 2 ^ (i % 8))) 0 ≠ crc32 p :=
      bytes32_set_flip_ne (crc32 p) (i / 8) (i % 8) hC hk
    have hdec : decide (field32 ((bytes32 (crc32 p)).set (i / 8)
        ((bytes32 (crc32 p)).getD (i / 8) 0 ^^^ 2 ^ (i % 8))) 0 = crc32 p) = false :=
      decide_eq_false hne
    rw [hdec, Bool.false_and]
  · -- the flipped bit lies in the payload (marker, target or cycles)
    have hgd : (bytes32 (crc32 p) ++ p).getD (i / 8) 0 = p.getD (i / 8 - 4) 0 := by
      have h := List.getD_append_right (bytes32 (crc32 p)) p 0 (i / 8) (by omega)
      rwa [hcbl] at h
    have hst : (bytes32 (crc32 p) ++ p).set (i / 8) (p.getD (i / 8 - 4) 0 ^^^ 2 ^ (i % 8))
        = bytes32 (crc32 p) ++ p.set (i / 8 - 4) (p.getD (i / 8 - 4) 0 ^^^ 2 ^ (i % 8)) := by
      have h := List.set_append_right (s := bytes32 (crc32 p)) (t := p)
        (i / 8) (p.getD (i / 8 - 4) 0 ^^^ 2 ^ (i % 8)) (by omega)
      rwa [hcbl] at h
    rw [hgd, hst]
    rw [drop4_append _ _ hcbl, field32_append_left4 _ _ hcbl, field32_bytes32 _ hC]
    have hjlt : i / 8 - 4 < p.length := by rw [hplen]; omega
    have hflip : p.set (i / 8 - 4) (p.getD (i / 8 - 4) 0 ^^^ 2 ^ (i % 8))
        = zipXor p (unitVec p.length (i / 8 - 4) (2 ^ (i % 8))) :=
      set_flip_eq_zipXor p (i / 8 - 4) _ hjlt
    rw [hflip, crc32_flip p _ ((unitVec_length _ _ _).symm), hplen]
    have hnz := crc_single_bit_nonzero (i / 8 - 4) (i % 8) (by omega) hr
    have hne := xor_ne_of_ne_zero (crc32 p) _ hnz
    have hdec : decide (crc32 p
        = crc32 p ^^^ crcFold 0 (unitVec 12 (i / 8 - 4) (2 ^ (i % 8)))) = false :=
      decide_eq_false (Ne.symm hne)
    rw [hdec, Bool.false_and]

/-- Witness for C5: flipping bit 50 (inside the marker field) of a
concrete freshly written record invalidates the next read. -/
theorem readRTC_detects_single_bit_flip_witness :
    (readRTC 2779096485 (flipBit (writeRTC 2779096485
      { crc32 := 0, magic := 0, quiet_wake_target := 123456, sleep_cycles_remaining := 7 })
      50)).2 = false :=
  readRTC_detects_single_bit_flip 2779096485 _ 50
    (by norm_num) (by norm_num) (by norm_num) (by norm_num)

/- ════════════════════════════════════════════════════════════════════
   I2C bus recovery (I2CManager::recover, I2CManager.cpp lines 16-62)
   ════════════════════════════════════════════════════════════════════ -/

/-- Externally observable actions of the bus-recovery routine: one SCL
low-then-high clock pulse, the manual STOP condition, and the final
re-initialisation of the Wire driver. -/
inductive BusAction where
  | pulse : Nat → BusAction
  | stop : BusAction
  | reinit : BusAction
deriving DecidableEq

/-- Embedding of the clocking loop of I2CManager::recover (I2CManager.cpp
lines 24-37): sda k is the level read on the data line after the k-th
clock pulse; the loop pulses, reads, and exits early once the line reads
high.  Returns (released, number of pulses performed). -/
def recoverLoop (sda : Nat → Bool) : Nat → Nat → Bool × Nat
  | k, 0 => (false, k)
  | k, fuel + 1 => if sda k then (true, k + 1) else recoverLoop sda (k + 1) fuel

/-- Embedding of I2CManager::recover (I2CManager.cpp lines 16-62): run the
clocking loop with 9 pulses of budget, then unconditionally emit the STOP
condition (lines 39-49) and re-initialise the Wire driver (line 60);
the returned flag is the released flag of the loop (line 61). -/
def recover (sda : Nat → Bool) : Bool × List BusAction :=
  ((recoverLoop sda 0 9).1,
    (List.range (recoverLoop sda 0 9).2).map BusAction.pulse
      ++ [BusAction.stop, BusAction.reinit])

theorem recoverLoop_spec (sda : Nat → Bool) :
    ∀ (fuel k : Nat),
      (k ≤ (recoverLoop sda k fuel).2 ∧ (recoverLoop sda k fuel).2 ≤ k + fuel)
      ∧ ((recoverLoop sda k fuel).1 = true ↔ ∃ j, k ≤ j ∧ j < k + fuel ∧ sda j = true)
      ∧ (∀ j, k ≤ j → j + 1 < (recoverLoop sda k fuel).2 → sda j = false)
      ∧ ((recoverLoop sda k fuel).1 = true →
          1 ≤ (recoverLoop sda k fuel).2 ∧ sda ((recoverLoop sda k fuel).2 - 1) = true) := by
  intro fuel
  induction fuel with
  | zero =>
    intro k
    simp only [recoverLoop]
    refine ⟨⟨Nat.le_refl k, by omega⟩, ?_, ?_, ?_⟩
    · constructor
      · intro h; exact absurd h (by simp)
      · rintro ⟨j, h1, h2, _⟩; omega
    · intro j h1 h2; omega
    · intro h; exact absurd h (by simp)
  | succ fuel ih =>
    intro k
    by_cases h : sda k = true
    · simp only [recoverLoop, h, if_true]
      refine ⟨⟨by omega, by omega⟩, ?_, ?_, ?_⟩
      · constructor
        · intro _; exact ⟨k, Nat.le_refl k, by omega, h⟩
        · intro _; trivial
      · intro j h1 h2; omega
      · intro _; exact ⟨by omega, by simpa using h⟩
    · have hk : sda k = false := by simpa using h
      simp only [recoverLoop, hk, Bool.false_eq_true, if_false]
      obtain ⟨⟨hb1, hb2⟩, hiff, hearly, hlast⟩ := ih (k + 1)
      refine ⟨⟨by omega, by omega⟩, ?_, ?_, ?_⟩
      · constructor
        · intro hr
          obtain ⟨j, h1, h2, h3⟩ := hiff.mp hr
          exact ⟨j, by omega, by omega, h3⟩
        · rintro ⟨j, h1, h2, h3⟩
          refine hiff.mpr ⟨j, ?_, by omega, h3⟩
          rcases Nat.eq_or_lt_of_le h1 with h4 | h4
          · exact absurd h3 (by rw [← h4, hk]; simp)
          · omega
      · intro j h1 h2
        rcases Nat.eq_or_lt_of_le h1 with h4 | h4
        · rw [← h4]; exact hk
        · exact hearly j (by omega) h2
      · exact hlast

/-- C7: recover pulses the clock at most 9 times, stops pulsing as soon as
the data line reads high (no pulse except possibly the last follows a high
read), then regardless of outcome emits the STOP condition followed by the
driver re-initialisation as the final actions; the returned flag is true
exactly when the data line was observed high during the loop (equivalently
within the 9-pulse budget), and a false return still ends with the same
STOP and re-initialisation actions. -/
theorem recover_protocol_spec (sda : Nat → Bool) :
    ∃ n : Nat,
      (recover sda).2 = (List.range n).map BusAction.pulse
          ++ [BusAction.stop, BusAction.reinit]
      ∧ n ≤ 9
      ∧ (∀ j, j + 1 < n → sda j = false)
      ∧ ((recover sda).1 = true ↔ ∃ k, k < n ∧ sda k = true)
      ∧ ((recover sda).1 = true ↔ ∃ k, k < 9 ∧ sda k = true) := by
  obtain ⟨⟨hb1, hb2⟩, hiff, hearly, hlast⟩ := recoverLoop_spec sda 9 0
  refine ⟨(recoverLoop sda 0 9).2, rfl, by omega, ?_, ?_, ?_⟩
  · intro j hj
    exact hearly j (Nat.zero_le j) hj
  · constructor
    · intro hrel
      obtain ⟨h1, h2⟩ := hlast hrel
      exact ⟨(recoverLoop sda 0 9).2 - 1, by omega, h2⟩
    · rintro ⟨k, hk1, hk2⟩
      exact hiff.mpr ⟨k, Nat.zero_le k, by omega, hk2⟩
  · constructor
    · intro hrel
      obtain ⟨j, _, hj2, hj3⟩ := hiff.mp hrel
      exact ⟨j, by omega, hj3⟩
    · rintro ⟨k, hk1, hk2⟩
      exact hiff.mpr ⟨k, Nat.zero_le k, by omega, hk2⟩

/-- Witness for C7: with the data line high at the first read, recover
reports success. -/
theorem recover_protocol_spec_witness : (recover fun _ => true).1 = true := by
  obtain ⟨n, _, _, _, _, hiff9⟩ := recover_protocol_spec fun _ => true
  exact hiff9.mpr ⟨0, by omega, rfl⟩

/- ════════════════════════════════════════════════════════════════════
   Sensor acquisition and publish gating (main.cpp lines 476-520, 175-220)
   ════════════════════════════════════════════════════════════════════ -/

/-- One raw measurement delivered by the SCD41 driver (readMeasurement
followed by getCO2/getTemperature/getHumidity).  The float channels are
modelled as rationals. -/
structure SensorReply where
  co2 : Nat
  temperature : ℚ
  humidity : ℚ

/-- The SensorData record of main.cpp (lines 61-69). -/
structure SensorData where
  temperature : ℚ
  humidity : ℚ
  co2 : Nat
  voltage : ℚ
  timestamp : Nat
  valid : Bool

/-- The range validation of readSensors (main.cpp lines 509-510):
CO2 in [400, 5000] ppm, temperature in [-10, 50] C, humidity in
[0, 100] percent. -/
def inValidRange (r : SensorReply) : Bool :=
  decide (400 ≤ r.co2) && decide (r.co2 ≤ 5000) && decide (-10 ≤ r.temperature)
    && decide (r.temperature ≤ 50) && decide (0 ≤ r.humidity) && decide (r.humidity ≤ 100)

/-- Embedding of readSensors (main.cpp lines 476-520): reply = none models
scd41.readMeasurement() delivering no data, in which case the C code
leaves the measurement fields untouched (modelled as zeros; the claim
concerns only the valid flag) and valid stays false; a delivered reading
is marked valid exactly when it passes the range validation. -/
def readSensors (reply : Option SensorReply) (voltage : ℚ) (ts : Nat) : SensorData :=
  match reply with
  | none =>
      { temperature := 0, humidity := 0, co2 := 0, voltage := voltage,
        timestamp := ts, valid := false }
  | some r =>
      { temperature := r.temperature, humidity := r.humidity, co2 := r.co2,
        voltage := voltage, timestamp := ts, valid := inValidRange r }

/-- Publish gating of setup (main.cpp lines 175-220): a reading is handed
to sendSingleReading only when its valid flag is set (readingSuccess) and
WiFi is connected. -/
def sendAttempted (d : SensorData) (wifiConnected : Bool) : Bool :=
  d.valid && wifiConnected

/-- C9: a measurement whose CO2, temperature or humidity falls outside the
configured valid range is treated identically to a sensor read failure:
the resulting valid flag equals the one of a failed read (both false), and
the reading is never handed to the publish path, whatever the network
state. -/
theorem invalid_range_treated_as_read_failure (r : SensorReply) (v : ℚ) (ts : Nat)
    (w : Bool) (hr : inValidRange r = false) :
    (readSensors (some r) v ts).valid = (readSensors none v ts).valid
    ∧ (readSensors (some r) v ts).valid = false
    ∧ sendAttempted (readSensors (some r) v ts) w = false := by
  simp [readSensors, sendAttempted, hr]

/-- Witness for C9: CO2 = 10000 ppm lies outside [400, 5000], so the
reading is not published even with WiFi connected. -/
theorem invalid_range_treated_as_read_failure_witness :
    sendAttempted (readSensors (some { co2 := 10000, temperature := 20, humidity := 50 })
      (33 / 10) 1700000000) true = false :=
  (invalid_range_treated_as_read_failure
    { co2 := 10000, temperature := 20, humidity := 50 } (33 / 10) 1700000000 true
    (by decide)).2.2

/- ════════════════════════════════════════════════════════════════════
   Quiet-window chunk planning (spec section 4.3)
   ════════════════════════════════════════════════════════════════════ -/

/-- Modelled from the spec: the chunk-planning contract planChunks of the
Quiet-Hours Scheduler (spec section 4.3) has no implementation under src/
(the repository ships only the simpler single-sleep variants); per the
spec, chunkCount = floor((target - now) / maxChunkSeconds) with a floor
of 1. -/
def planChunks (now target maxChunkSeconds : Nat) : Nat :=
  max 1 ((target - now) / maxChunkSeconds)

/-- C2: for now before target and a positive chunk size, planChunks
equals floor((target - now) / maxChunkSeconds) whenever that quotient is
at least 1 (the window holds at least one full chunk), collapses to
exactly 1 when the window is shorter than one chunk, and is never below
1. -/
theorem planChunks_floor_and_min_one (now target maxChunk : Nat)
    (h1 : now < target) (h2 : 0 < maxChunk) :
    1 ≤ planChunks now target maxChunk
    ∧ (maxChunk ≤ target - now →
        planChunks now target maxChunk = (target - now) / maxChunk)
    ∧ (target - now < maxChunk → planChunks now target maxChunk = 1) := by
  unfold planChunks
  refine ⟨le_max_left 1 _, ?_, ?_⟩
  · intro h3
    have h4 : 1 ≤ (target - now) / maxChunk := (Nat.one_le_div_iff h2).mpr h3
    omega
  · intro h3
    rw [Nat.div_eq_of_lt h3]
    omega

/-- Witness for C2: a 100 s window with 30 s chunks plans at least one
chunk. -/
theorem planChunks_floor_and_min_one_witness : 1 ≤ planChunks 0 100 30 :=
  (planChunks_floor_and_min_one 0 100 30 (by decide) (by decide)).1

/- ════════════════════════════════════════════════════════════════════
   Boot-time brownout guard (spec sections 4.4 step 1 and 8)
   ════════════════════════════════════════════════════════════════════ -/

/-- Outcome of the boot-time voltage check: either a terminal emergency
deep sleep (with the persistent state cleared) or a normal boot. -/
inductive BootDecision where
  | emergencySleep : Bool → Nat → BootDecision
  | proceedNormally : BootDecision
deriving DecidableEq

/-- Voltage thresholds of the brownout guard, treated as configuration
constants (spec section 6). -/
structure BrownoutConfig where
  noiseFloorVolts : ℚ
  minOperatingVolts : ℚ
  maxDeepSleepSec : Nat

/-- Modelled from the spec: the BrownoutCheck step of the Boot
Orchestrator (spec section 4.4 step 1) has no implementation under src/
(the repository ships only the simpler main-loop variants); per the spec,
if the measured voltage is above the noise floor and below the minimum
operating threshold, the boot clears persistent state and sleeps for the
hardware-maximum duration, and otherwise proceeds normally. -/
def brownoutCheck (cfg : BrownoutConfig) (v : ℚ) : BootDecision :=
  if cfg.noiseFloorVolts < v ∧ v < cfg.minOperatingVolts then
    BootDecision.emergencySleep true cfg.maxDeepSleepSec
  else BootDecision.proceedNormally

/-- C8: a voltage at or below the noise floor does not take the emergency
path (the boot proceeds normally), while a voltage above the noise floor
and below the minimum operating threshold yields the terminal emergency
sleep with the persistent state cleared and the hardware-maximum
duration. -/
theorem brownout_guard_decision (cfg : BrownoutConfig) (v : ℚ) :
    (v ≤ cfg.noiseFloorVolts → brownoutCheck cfg v = BootDecision.proceedNormally)
    ∧ (cfg.noiseFloorVolts < v → v < cfg.minOperatingVolts →
        brownoutCheck cfg v
          = BootDecision.emergencySleep true cfg.maxDeepSleepSec) := by
  unfold brownoutCheck
  constructor
  · intro h
    rw [if_neg]
    rintro ⟨h1, _⟩
    exact absurd h (not_le.mpr h1)
  · intro h1 h2
    rw [if_pos ⟨h1, h2⟩]

/-- Example thresholds for the brownout guard: noise floor 0.5 V, minimum
operating voltage 3 V, hardware ceiling 12600 s. -/
def brownoutTestConfig : BrownoutConfig :=
  { noiseFloorVolts := 1/2, minOperatingVolts := 3, maxDeepSleepSec := 12600 }

/-- Witness for C8 at the thresholds of spec section 8: 0.05 V is treated
as an unsettled ADC reading (normal boot), 2.0 V triggers the emergency
sleep. -/
theorem brownout_guard_decision_witness :
    brownoutCheck brownoutTestConfig (1/20) = BootDecision.proceedNormally
    ∧ brownoutCheck brownoutTestConfig 2 = BootDecision.emergencySleep true 12600 :=
  ⟨(brownout_guard_decision brownoutTestConfig (1/20)).1 (by norm_num [brownoutTestConfig]),
   (brownout_guard_decision brownoutTestConfig 2).2
     (by norm_num [brownoutTestConfig]) (by norm_num [brownoutTestConfig])⟩
